import Mathlib

/-!
Shallow embedding of the bitcoin-p2p-handshake repository:
the message envelope codec (`src/bitcoin/src/lib.rs`), the Version payload
codec (`src/bitcoin/src/version.rs`), the command-name codec
(`src/bitcoin/src/message_type.rs`), the VerAck codec
(`src/bitcoin/src/verack.rs`) and the responder state machine
(`src/src/listener/mod.rs`).  Machine bytes are `Nat` values < 256, machine
integers are `Nat` values carrying the little-endian bit pattern of the Rust
integer, fallible Rust functions return `Except`.
-/

namespace BitcoinHandshake

/-! Byte-order helpers: `toLE n v` is the `n`-byte little-endian encoding of
`v`, matching `byteorder::LittleEndian`; `toBE` matches `byteorder::BigEndian`. -/

def toLE : Nat → Nat → List Nat
  | 0, _ => []
  | n + 1, v => v % 256 :: toLE n (v / 256)

def fromLE : List Nat → Nat
  | [] => 0
  | b :: bs => b + 256 * fromLE bs

def toBE (n v : Nat) : List Nat := (toLE n v).reverse

def fromBE (bs : List Nat) : Nat := fromLE bs.reverse

/-- Model of the error enum `SerdeBitcoinError` in `src/bitcoin/src/lib.rs`.
`ioError` stands for `IoError` (short reads of a `Cursor`); the payloads of
source variants that carry foreign error types are dropped, the payload of
`UnknownType` is kept as the offending byte string. -/
inductive SerdeBitcoinError where
  | messageTypeTooLong (n : Nat)
  | infallible
  | unknownType (bytes : List Nat)
  | ioError
  | invalidUserAgentLength
  | invalidPayloadLength
  | failedToParseUserAgent
  | failedToMapToIpv4
  | invalidChecksum
deriving DecidableEq, Repr

/-- `cursor.read_exact` on a byte slice: consume exactly `n` bytes, short
read is an `IoError`. Returns the bytes read and the remaining input. -/
def readBytesE (n : Nat) (data : List Nat) : Except SerdeBitcoinError (List Nat × List Nat) :=
  if n ≤ data.length then .ok (data.take n, data.drop n) else .error .ioError

/-! UTF-8 validity, mirroring `String::from_utf8` (Rust core UTF-8
well-formedness: continuation ranges, surrogate and overlong exclusions). -/

def isCont (b : Nat) : Bool := 0x80 ≤ b && b ≤ 0xBF

def utf8Valid : List Nat → Bool
  | [] => true
  | b :: rest =>
    if b ≤ 0x7F then utf8Valid rest
    else if 0xC2 ≤ b && b ≤ 0xDF then
      match rest with
      | c :: r => isCont c && utf8Valid r
      | [] => false
    else if b = 0xE0 then
      match rest with
      | c1 :: c2 :: r => (0xA0 ≤ c1 && c1 ≤ 0xBF) && isCont c2 && utf8Valid r
      | _ => false
    else if (0xE1 ≤ b && b ≤ 0xEC) || b = 0xEE || b = 0xEF then
      match rest with
      | c1 :: c2 :: r => isCont c1 && isCont c2 && utf8Valid r
      | _ => false
    else if b = 0xED then
      match rest with
      | c1 :: c2 :: r => (0x80 ≤ c1 && c1 ≤ 0x9F) && isCont c2 && utf8Valid r
      | _ => false
    else if b = 0xF0 then
      match rest with
      | c1 :: c2 :: c3 :: r => (0x90 ≤ c1 && c1 ≤ 0xBF) && isCont c2 && isCont c3 && utf8Valid r
      | _ => false
    else if 0xF1 ≤ b && b ≤ 0xF3 then
      match rest with
      | c1 :: c2 :: c3 :: r => isCont c1 && isCont c2 && isCont c3 && utf8Valid r
      | _ => false
    else if b = 0xF4 then
      match rest with
      | c1 :: c2 :: c3 :: r => (0x80 ≤ c1 && c1 ≤ 0x8F) && isCont c2 && isCont c3 && utf8Valid r
      | _ => false
    else false

/-! Addresses.  `std::net::IpAddr` is the sum of a 32-bit IPv4 value and a
128-bit IPv6 value (both carried as the big-endian integer of the octets,
like `u128::from_be_bytes`); a `SocketAddr` pairs an address with a port. -/

inductive IpAddr where
  | v4 (a : Nat)
  | v6 (a : Nat)
deriving DecidableEq, Repr

structure SockAddr where
  ip : IpAddr
  port : Nat
deriving DecidableEq, Repr

/-- `Ipv6Addr::segments`: the `i`-th 16-bit group, most significant first. -/
def segments (v i : Nat) : Nat := v / 2 ^ (16 * (7 - i)) % 2 ^ 16

/-- `is_ipv4_mapped_ipv6` from `src/bitcoin/src/version.rs` lines 61-64:
`segments[0..5] == [0, 0, 0, 0, 0] && segments[5] == 0xffff`. -/
def is_ipv4_mapped_ipv6 (v : Nat) : Bool :=
  segments v 0 == 0 && segments v 1 == 0 && segments v 2 == 0 &&
  segments v 3 == 0 && segments v 4 == 0 && segments v 5 == 0xffff

/-- `Ipv6Addr::to_ipv4_mapped`: `Some` exactly when the first 12 octets are
`00 .. 00 ff ff`, i.e. the address value shifted right by 32 bits is `0xffff`. -/
def toIpv4Mapped (v : Nat) : Option Nat :=
  if v / 2 ^ 32 = 0xffff then some (v % 2 ^ 32) else none

/-- `Ipv4Addr::to_ipv6_mapped` composed with `u128::from_be_bytes`, as used on
the serialize side: an IPv4 value maps to `::ffff:a.b.c.d`, an IPv6 value is
passed through. -/
def ipToU128 : IpAddr → Nat
  | .v4 a => 0xffff * 2 ^ 32 + a
  | .v6 a => a

/-- The 16-byte wire form of an address field (big-endian `u128` write). -/
def encodeIp (ip : IpAddr) : List Nat := toBE 16 (ipToU128 ip)

/-- The address branch of `Version::deserialize` (lines 112-123 and 126-137):
if the 16-byte value passes `is_ipv4_mapped_ipv6`, extract the IPv4 via
`to_ipv4_mapped`, with `None` turned into `FailedToMapToIpv4`; otherwise keep
the native IPv6. -/
def decodeIp (v : Nat) : Except SerdeBitcoinError IpAddr :=
  if is_ipv4_mapped_ipv6 v then
    match toIpv4Mapped v with
    | some a => .ok (.v4 a)
    | none => .error .failedToMapToIpv4
  else .ok (.v6 v)

/-- `Version` from `src/bitcoin/src/version.rs`.  Signed Rust fields
(`protocol_version : i32`, `timestamp : i64`, `start_height : i32`) are
carried as the `Nat` of their little-endian bit pattern; `user_agent` is the
UTF-8 byte string of the Rust `String`. -/
structure Version where
  protocol_version : Nat
  services : Nat
  timestamp : Nat
  receiver_services : Nat
  receiver_address : SockAddr
  sender_services : Nat
  sender_address : SockAddr
  nonce : Nat
  user_agent : List Nat
  start_height : Nat
  relay : Bool
deriving DecidableEq, Repr

def IpAddr.wf : IpAddr → Bool
  | .v4 a => decide (a < 2 ^ 32)
  | .v6 a => decide (a < 2 ^ 128)

def SockAddr.wf (s : SockAddr) : Bool := s.ip.wf && decide (s.port < 2 ^ 16)

/-- The range invariants the Rust field types give for free, plus UTF-8
validity of the `String` field. -/
def Version.wf (v : Version) : Bool :=
  decide (v.protocol_version < 2 ^ 32) && decide (v.services < 2 ^ 64) &&
  decide (v.timestamp < 2 ^ 64) && decide (v.receiver_services < 2 ^ 64) &&
  v.receiver_address.wf && decide (v.sender_services < 2 ^ 64) &&
  v.sender_address.wf && decide (v.nonce < 2 ^ 64) &&
  utf8Valid v.user_agent && decide (v.start_height < 2 ^ 32)

/-- `Version::serialize` (lines 67-103): field-by-field little-endian writes,
big-endian for the IP and port fields; errors with
`InvalidUserAgentLength` when the user agent does not fit `u8`. -/
def Version.serialize (v : Version) : Except SerdeBitcoinError (List Nat) :=
  if v.user_agent.length ≤ 255 then
    .ok (toLE 4 v.protocol_version ++ toLE 8 v.services ++ toLE 8 v.timestamp ++
      toLE 8 v.receiver_services ++ toBE 16 (ipToU128 v.receiver_address.ip) ++
      toBE 2 v.receiver_address.port ++ toLE 8 v.sender_services ++
      toBE 16 (ipToU128 v.sender_address.ip) ++ toBE 2 v.sender_address.port ++
      toLE 8 v.nonce ++ [v.user_agent.length] ++ v.user_agent ++
      toLE 4 v.start_height ++ [if v.relay then 1 else 0])
  else .error .invalidUserAgentLength

/-- `Version::deserialize` (lines 105-161): cursor reads in field order;
trailing input after the relay byte is ignored, exactly like the source. -/
def Version.deserialize (data : List Nat) : Except SerdeBitcoinError Version := do
  let (pvb, r) ← readBytesE 4 data
  let (svb, r) ← readBytesE 8 r
  let (tsb, r) ← readBytesE 8 r
  let (rsvb, r) ← readBytesE 8 r
  let (ripb, r) ← readBytesE 16 r
  let receiverIp ← decodeIp (fromBE ripb)
  let (rpb, r) ← readBytesE 2 r
  let (ssvb, r) ← readBytesE 8 r
  let (sipb, r) ← readBytesE 16 r
  let senderIp ← decodeIp (fromBE sipb)
  let (spb, r) ← readBytesE 2 r
  let (nb, r) ← readBytesE 8 r
  let (ualb, r) ← readBytesE 1 r
  let (uab, r) ← readBytesE (fromLE ualb) r
  let ua ← if utf8Valid uab then Except.ok uab
           else Except.error SerdeBitcoinError.failedToParseUserAgent
  let (shb, r) ← readBytesE 4 r
  let (rlb, _) ← readBytesE 1 r
  Except.ok {
    protocol_version := fromLE pvb
    services := fromLE svb
    timestamp := fromLE tsb
    receiver_services := fromLE rsvb
    receiver_address := ⟨receiverIp, fromBE rpb⟩
    sender_services := fromLE ssvb
    sender_address := ⟨senderIp, fromBE spb⟩
    nonce := fromLE nb
    user_agent := ua
    start_height := fromLE shb
    relay := fromLE rlb != 0 }

deriving instance DecidableEq for Except

/-- The UTF-8 bytes of an ASCII string literal, as `Nat`s. -/
def strBytes (s : String) : List Nat := s.data.map Char.toNat

/-- `MessageType` from `src/bitcoin/src/message_type.rs` lines 4-40: the
closed enumeration of supported command names. -/
inductive MessageType where
  | Version
  | VerAck
  | Ping
  | Addr
  | GetData
  | Tx
  | Block
  | GetBlocks
  | GetHeaders
  | Headers
  | Reject
  | MemPool
  | FeeFilter
  | SendHeaders
  | SendCmpct
  | WtxIdRelay
  | SendAddrV2
deriving DecidableEq, Repr

/-- The `strum` `Display`/`to_string` of each variant (the
`#[strum(serialize = "...")]` attributes). -/
def MessageType.toStr : MessageType → String
  | .Version => "version"
  | .VerAck => "verack"
  | .Ping => "ping"
  | .Addr => "addr"
  | .GetData => "getdata"
  | .Tx => "tx"
  | .Block => "block"
  | .GetBlocks => "getblocks"
  | .GetHeaders => "getheaders"
  | .Headers => "headers"
  | .Reject => "reject"
  | .MemPool => "mempool"
  | .FeeFilter => "feefilter"
  | .SendHeaders => "sendheaders"
  | .SendCmpct => "sendcmpct"
  | .WtxIdRelay => "wtxidrelay"
  | .SendAddrV2 => "sendaddrv2"

/-- The canonical name as bytes (`to_string().into_bytes()`). -/
def MessageType.toName (mt : MessageType) : List Nat := strBytes mt.toStr

/-- The body of `MessageType::serialize` (lines 47-56) over the name bytes:
error when longer than `MessageType::SIZE` (12), otherwise right-pad with
zero bytes to exactly 12. -/
def MessageType.serializeBytes (name : List Nat) : Except SerdeBitcoinError (List Nat) :=
  if name.length > 12 then .error (.messageTypeTooLong name.length)
  else .ok (name ++ List.replicate (12 - name.length) 0)

/-- `MessageType::serialize`: the padded encoding of the variant's name. -/
def MessageType.serialize (mt : MessageType) : Except SerdeBitcoinError (List Nat) :=
  MessageType.serializeBytes mt.toName

/-- `data[0..data.len() - zeroes_count]` where `zeroes_count` counts the
trailing zero bytes (lines 63-67). -/
def stripTrailingZeros (data : List Nat) : List Nat :=
  (data.reverse.dropWhile (fun b => b == 0)).reverse

/-- The `str::parse::<MessageType>` match generated by `strum`'s
`EnumString`: exact match against each canonical name.  (Bytes that are not
valid UTF-8 are lossily replaced in the source before matching; replacement
characters never occur in the ASCII name table, so matching the raw bytes is
extensionally the same.) -/
def MessageType.ofName (name : List Nat) : Option MessageType :=
  if name = strBytes "version" then some .Version
  else if name = strBytes "verack" then some .VerAck
  else if name = strBytes "ping" then some .Ping
  else if name = strBytes "addr" then some .Addr
  else if name = strBytes "getdata" then some .GetData
  else if name = strBytes "tx" then some .Tx
  else if name = strBytes "block" then some .Block
  else if name = strBytes "getblocks" then some .GetBlocks
  else if name = strBytes "getheaders" then some .GetHeaders
  else if name = strBytes "headers" then some .Headers
  else if name = strBytes "reject" then some .Reject
  else if name = strBytes "mempool" then some .MemPool
  else if name = strBytes "feefilter" then some .FeeFilter
  else if name = strBytes "sendheaders" then some .SendHeaders
  else if name = strBytes "sendcmpct" then some .SendCmpct
  else if name = strBytes "wtxidrelay" then some .WtxIdRelay
  else if name = strBytes "sendaddrv2" then some .SendAddrV2
  else none

/-- `MessageType::deserialize` (lines 59-75): reject input longer than 12
bytes, strip trailing zero bytes, match against the closed name table,
unknown names give `UnknownType`.  (The `Infallible` branch guards a slice
`data.get(0..k)` with `k ≤ data.len()`, which never returns `None`.) -/
def MessageType.deserialize (data : List Nat) : Except SerdeBitcoinError MessageType :=
  if data.length > 12 then .error (.messageTypeTooLong data.length)
  else
    match MessageType.ofName (stripTrailingZeros data) with
    | some mt => .ok mt
    | none => .error (.unknownType (stripTrailingZeros data))

/-- `VerAck` from `src/bitcoin/src/verack.rs`: the empty payload. -/
inductive VerAck where
  | mk
deriving DecidableEq, Repr

def VerAck.serialize (_ : VerAck) : Except SerdeBitcoinError (List Nat) := .ok []

def VerAck.deserialize (_ : List Nat) : Except SerdeBitcoinError VerAck := .ok .mk

/-! SHA-256 (the `sha2` crate's `Sha256`), over byte lists, with 32-bit words
as `Nat` values reduced mod `2 ^ 32`. -/

def rotr32 (n x : Nat) : Nat := ((x >>> n) ||| (x <<< (32 - n))) % 2 ^ 32

def bigSigma0 (x : Nat) : Nat := rotr32 2 x ^^^ rotr32 13 x ^^^ rotr32 22 x

def bigSigma1 (x : Nat) : Nat := rotr32 6 x ^^^ rotr32 11 x ^^^ rotr32 25 x

def smallSigma0 (x : Nat) : Nat := rotr32 7 x ^^^ rotr32 18 x ^^^ (x >>> 3)

def smallSigma1 (x : Nat) : Nat := rotr32 17 x ^^^ rotr32 19 x ^^^ (x >>> 10)

def chF (x y z : Nat) : Nat := (x &&& y) ^^^ ((x ^^^ 0xffffffff) &&& z)

def majF (x y z : Nat) : Nat := (x &&& y) ^^^ (x &&& z) ^^^ (y &&& z)

def shaK : List Nat :=
  [1116352408, 1899447441, 3049323471, 3921009573, 961987163,
   1508970993, 2453635748, 2870763221, 3624381080, 310598401,
   607225278, 1426881987, 1925078388, 2162078206, 2614888103,
   3248222580, 3835390401, 4022224774, 264347078, 604807628,
   770255983, 1249150122, 1555081692, 1996064986, 2554220882,
   2821834349, 2952996808, 3210313671, 3336571891, 3584528711,
   113926993, 338241895, 666307205, 773529912, 1294757372,
   1396182291, 1695183700, 1986661051, 2177026350, 2456956037,
   2730485921, 2820302411, 3259730800, 3345764771, 3516065817,
   3600352804, 4094571909, 275423344, 430227734, 506948616,
   659060556, 883997877, 958139571, 1322822218, 1537002063,
   1747873779, 1955562222, 2024104815, 2227730452, 2361852424,
   2428436474, 2756734187, 3204031479, 3329325298]

def shaH0 : List Nat :=
  [1779033703, 3144134277, 1013904242, 2773480762, 1359893119,
   2600822924, 528734635, 1541459225]

/-- 4 big-endian bytes at a time into 32-bit words. -/
def toWords : List Nat → List Nat
  | a :: b :: c :: d :: rest => (((a * 256 + b) * 256 + c) * 256 + d) :: toWords rest
  | _ => []

/-- Message-schedule extension: append `W[i] = W[i-16] + σ₀(W[i-15]) + W[i-7]
+ σ₁(W[i-2])`, `n` times. -/
def extendWords : Nat → List Nat → List Nat
  | 0, ws => ws
  | n + 1, ws =>
    let len := ws.length
    let w := (ws.getD (len - 16) 0 + smallSigma0 (ws.getD (len - 15) 0) +
              ws.getD (len - 7) 0 + smallSigma1 (ws.getD (len - 2) 0)) % 2 ^ 32
    extendWords n (ws ++ [w])

/-- The 64 compression rounds over the zipped (K, W) list. -/
def shaRounds : List (Nat × Nat) → List Nat → List Nat
  | [], st => st
  | (k, w) :: rest, st =>
    match st with
    | [a, b, c, d, e, f, g, h] =>
      let t1 := (h + bigSigma1 e + chF e f g + k + w) % 2 ^ 32
      let t2 := (bigSigma0 a + majF a b c) % 2 ^ 32
      shaRounds rest [(t1 + t2) % 2 ^ 32, a, b, c, (d + t1) % 2 ^ 32, e, f, g]
    | _ => st

/-- One 64-byte block into the running state. -/
def shaCompress (st block : List Nat) : List Nat :=
  let ws := extendWords 48 (toWords block)
  let st2 := shaRounds (shaK.zip ws) st
  (st.zip st2).map (fun p => (p.1 + p.2) % 2 ^ 32)

def shaBlocksGo : Nat → List Nat → List Nat → List Nat
  | 0, st, _ => st
  | n + 1, st, bytes => shaBlocksGo n (shaCompress st (bytes.take 64)) (bytes.drop 64)

/-- Merkle-Damgård padding: `0x80`, zeros, 8-byte big-endian bit length. -/
def shaPad (msg : List Nat) : List Nat :=
  msg ++ 0x80 :: (List.replicate ((64 - (msg.length + 9) % 64) % 64) 0 ++ toBE 8 (msg.length * 8))

def sha256 (msg : List Nat) : List Nat :=
  let padded := shaPad msg
  (shaBlocksGo (padded.length / 64) shaH0 padded).foldr (fun w acc => toBE 4 w ++ acc) []

/-- `Message::build_checksum` (lines 101-116): first 4 bytes of the double
SHA-256 of the payload. -/
def build_checksum (payload : List Nat) : List Nat := (sha256 (sha256 payload)).take 4

/-- `Payload` from `src/bitcoin/src/lib.rs` lines 55-68. -/
inductive Payload where
  | version (v : Version)
  | verAck (v : VerAck)
deriving DecidableEq, Repr

def Payload.serialize : Payload → Except SerdeBitcoinError (List Nat)
  | .version v => v.serialize
  | .verAck v => v.serialize

def MAGIC_BYTES_MAINNET : List Nat := [0xf9, 0xbe, 0xb4, 0xd9]

def MAGIC_BYTES_TESTNET : List Nat := [0x0b, 0x11, 0x09, 0x07]

/-- `Message` from `src/bitcoin/src/lib.rs` lines 70-82 (`magic_bytes` is a
`[u8; 4]` in the source; the length-4 invariant is a hypothesis where
needed). -/
structure Message where
  magic_bytes : List Nat
  ty : MessageType
  payload : Payload
deriving DecidableEq, Repr

/-- `Message::build` (lines 86-98): the caller supplies the payload AND the
type tag; only the magic bytes are derived (from the `testet` flag). -/
def Message.build (payload : Payload) (ty : MessageType) (testet : Bool) : Message :=
  { magic_bytes := if testet then MAGIC_BYTES_TESTNET else MAGIC_BYTES_MAINNET
    ty := ty
    payload := payload }

/-- `Message::serialize` (lines 119-145): magic ++ command ++ LE length ++
checksum ++ payload; `InvalidPayloadLength` when the payload length does not
fit `u32`. -/
def Message.serialize (m : Message) : Except SerdeBitcoinError (List Nat) := do
  let payload_bytes ← m.payload.serialize
  if payload_bytes.length < 2 ^ 32 then
    let message_type ← m.ty.serialize
    Except.ok (m.magic_bytes ++ (message_type ++ (toLE 4 payload_bytes.length ++
      (build_checksum payload_bytes ++ payload_bytes))))
  else Except.error SerdeBitcoinError.invalidPayloadLength

/-- `Message::deserialize` after the 4 magic bytes (lines 155-193): the magic
bytes are read and recorded but take no part in parsing, so the remainder is
factored out; returns the command tag and payload.  The checksum comparison
happens before the payload dispatch, exactly as in the source. -/
def Message.deserializeRest (r : List Nat) : Except SerdeBitcoinError (MessageType × Payload) := do
  let (mtb, r) ← readBytesE 12 r
  let message_type ← MessageType.deserialize mtb
  let (lenb, r) ← readBytesE 4 r
  let (checksum, r) ← readBytesE 4 r
  let (payload_bytes, _) ← readBytesE (fromLE lenb) r
  if build_checksum payload_bytes ≠ checksum then
    Except.error SerdeBitcoinError.invalidChecksum
  else
    match message_type with
    | MessageType.Version => (Version.deserialize payload_bytes).map (fun v => (message_type, Payload.version v))
    | MessageType.VerAck => (VerAck.deserialize payload_bytes).map (fun v => (message_type, Payload.verAck v))
    | ty => Except.error (SerdeBitcoinError.unknownType ty.toName)

/-- `Message::deserialize` (lines 147-194). -/
def Message.deserialize (data : List Nat) : Except SerdeBitcoinError Message :=
  match readBytesE 4 data with
  | .error e => .error e
  | .ok (magic_bytes, r) =>
    (Message.deserializeRest r).map (fun p => { magic_bytes := magic_bytes, ty := p.1, payload := p.2 })

/-- Flip bit `k` of byte `i`. -/
def flipBit (bytes : List Nat) (i k : Nat) : List Nat :=
  bytes.set i (bytes.getD i 0 ^^^ 2 ^ k)

/-! The responder state machine, `src/src/listener/mod.rs`.  The pure
per-message transition of `run` (lines 31-77) is modelled explicitly; stream
I/O, the random nonce and the current timestamp inside the version reply are
environment effects and are abstracted into the `Reply` summary, which keeps
exactly the data the source computes deterministically (which payload is
sent, and which addresses go into the version payload's sender/receiver
fields). -/

inductive ConnectionStatus where
  | noConnection
  | connecting
  | connected
deriving DecidableEq, Repr

/-- The one modelled variant of `listener::Error` (lines 138-139): its two
`String` fields in construction order.  At every construction site the FIRST
field is the received type and the SECOND the expected type. -/
inductive ListenerError where
  | receivedWrongMessageType (field0 field1 : String)
deriving DecidableEq, Repr

/-- The `thiserror` `Display` of `listener::Error::ReceivedWrongMessageType`:
`"Received wrong message type. Expected {0}, received {1}"` — it renders
field 0 in the `Expected` slot and field 1 in the `received` slot. -/
def renderListenerError : ListenerError → String
  | .receivedWrongMessageType a b => "Received wrong message type. Expected " ++ a ++ ", received " ++ b

/-- What `run` sends back in one loop iteration: `send_version` builds the
version payload with `receiver_address = peer addr` and `sender_address =`
the local address (lines 80-103); `send_verack` sends the empty ack. -/
inductive Reply where
  | versionReply (sender receiver : SockAddr)
  | verackReply
deriving DecidableEq, Repr

/-- The match on `(status, message type)` in `run` (lines 50-75): the new
status and the reply sent, or the wrong-message-type error (constructed, as
in the source, with the received type first and the expected type second). -/
def respondStep (own peer : SockAddr) (status : ConnectionStatus) (mt : MessageType) :
    Except ListenerError (ConnectionStatus × Option Reply) :=
  match status with
  | .noConnection =>
    if mt ≠ MessageType.Version then
      .error (.receivedWrongMessageType mt.toStr MessageType.Version.toStr)
    else .ok (.connecting, some (.versionReply own peer))
  | .connecting =>
    if mt ≠ MessageType.VerAck then
      .error (.receivedWrongMessageType mt.toStr MessageType.VerAck.toStr)
    else .ok (.connected, some .verackReply)
  | .connected => .ok (.connected, none)

/-- Lookup in the shared `DashMap<SocketAddr, ConnectionStatus>`. -/
def lookupStatus : List (SockAddr × ConnectionStatus) → SockAddr → Option ConnectionStatus
  | [], _ => none
  | (a, s) :: rest, addr => if a = addr then some s else lookupStatus rest addr

/-- `DashMap::insert`: the new binding shadows any previous one. -/
def insertStatus (conns : List (SockAddr × ConnectionStatus)) (addr : SockAddr)
    (st : ConnectionStatus) : List (SockAddr × ConnectionStatus) :=
  (addr, st) :: conns

/-- One iteration of `run`'s loop: read the peer's status (default
`NoConnection`), take the transition, write the new status back into the
shared map. -/
def runIteration (own : SockAddr) (conns : List (SockAddr × ConnectionStatus))
    (peer : SockAddr) (mt : MessageType) :
    Except ListenerError (List (SockAddr × ConnectionStatus) × Option Reply) :=
  let status := (lookupStatus conns peer).getD ConnectionStatus.noConnection
  match respondStep own peer status mt with
  | .error e => .error e
  | .ok (newStatus, reply) => .ok (insertStatus conns peer newStatus, reply)

/-- An address whose IP is either IPv4, or an IPv6 that does not match the
IPv4-mapped pattern. -/
def IpAddr.notMapped : IpAddr → Bool
  | .v4 _ => true
  | .v6 a => !(is_ipv4_mapped_ipv6 a)

/-! Concrete example values used by witnesses and counterexamples. -/

/-- A minimal well-formed `Version`: both addresses IPv4, empty user agent. -/
def vGood : Version :=
  { protocol_version := 0, services := 0, timestamp := 0, receiver_services := 0,
    receiver_address := ⟨.v4 0, 0⟩, sender_services := 0,
    sender_address := ⟨.v4 0, 0⟩, nonce := 0, user_agent := [],
    start_height := 0, relay := false }

/-- `Version::serialize vGood` (computed; 86 bytes). -/
def vGoodBytes : List Nat :=
  [0, 0, 0, 0, 0, 0, 0, 0, 0, 0, 0, 0, 0, 0, 0, 0, 0, 0, 0, 0,
   0, 0, 0, 0, 0, 0, 0, 0, 0, 0, 0, 0, 0, 0, 0, 0, 0, 0, 255, 255,
   0, 0, 0, 0, 0, 0, 0, 0, 0, 0, 0, 0, 0, 0, 0, 0, 0, 0, 0, 0,
   0, 0, 0, 0, 255, 255, 0, 0, 0, 0, 0, 0, 0, 0, 0, 0, 0, 0, 0, 0,
   0, 0, 0, 0, 0, 0]

/-- A `Version` whose receiver address is the IPv4-mapped IPv6 `::ffff:0.0.0.0`
— a legal `IpAddr::V6` value in the source. -/
def vMappedCex : Version :=
  { protocol_version := 0, services := 0, timestamp := 0, receiver_services := 0,
    receiver_address := ⟨.v6 (0xffff * 2 ^ 32), 0⟩, sender_services := 0,
    sender_address := ⟨.v4 0, 0⟩, nonce := 0, user_agent := [],
    start_height := 0, relay := false }

/-- What `vMappedCex` decodes back to: the receiver comes back as IPv4. -/
def vMappedDecoded : Version :=
  { vMappedCex with receiver_address := ⟨.v4 0, 0⟩ }

/-- The canonical mainnet `verack` wire message (checksum `5df6e0e2` of the
empty payload). -/
def verackMsgBytes : List Nat :=
  [0xf9, 0xbe, 0xb4, 0xd9, 118, 101, 114, 97, 99, 107, 0, 0, 0, 0, 0, 0,
   0, 0, 0, 0, 0x5d, 0xf6, 0xe0, 0xe2]

/-! Helper lemmas (shared; none of these is a claim theorem). -/

theorem toLE_length (n v : Nat) : (toLE n v).length = n := by
  induction n generalizing v with
  | zero => rfl
  | succ n ih => simp [toLE, ih]

theorem toBE_length (n v : Nat) : (toBE n v).length = n := by
  simp [toBE, toLE_length]

theorem fromLE_toLE (n v : Nat) (h : v < 256 ^ n) : fromLE (toLE n v) = v := by
  induction n generalizing v with
  | zero => simp [toLE, fromLE]; omega
  | succ n ih =>
    rw [toLE, fromLE, ih (v / 256) (by rw [pow_succ] at h; omega)]
    omega

theorem fromBE_toBE (n v : Nat) (h : v < 256 ^ n) : fromBE (toBE n v) = v := by
  simp [fromBE, toBE, List.reverse_reverse, fromLE_toLE n v h]

theorem fromLE_singleton (b : Nat) : fromLE [b] = b := by simp [fromLE]

theorem readBytesE_append (xs ys : List Nat) (n : Nat) (h : xs.length = n) :
    readBytesE n (xs ++ ys) = .ok (xs, ys) := by
  subst h
  rw [readBytesE, if_pos (by simp)]
  rw [List.take_left, List.drop_left]

theorem readBytesE_exact (xs : List Nat) : readBytesE xs.length xs = .ok (xs, []) := by
  simpa using readBytesE_append xs [] xs.length rfl

theorem readBytesE_singleton (x : Nat) : readBytesE 1 [x] = .ok ([x], []) := rfl

theorem ebind_ok {α β : Type} (x : α) (f : α → Except SerdeBitcoinError β) :
    (Except.ok x >>= f) = f x := rfl

theorem ebind_error {α β : Type} (e : SerdeBitcoinError) (f : α → Except SerdeBitcoinError β) :
    ((Except.error e : Except SerdeBitcoinError α) >>= f) = Except.error e := rfl

theorem ipToU128_lt (ip : IpAddr) (h : ip.wf = true) : ipToU128 ip < 2 ^ 128 := by
  cases ip <;> simp [IpAddr.wf, ipToU128] at * <;> omega

theorem is_mapped_div (x : Nat) (hx : x < 2 ^ 128) (h : is_ipv4_mapped_ipv6 x = true) :
    x / 2 ^ 32 = 0xffff := by
  simp only [is_ipv4_mapped_ipv6, segments, Bool.and_eq_true, beq_iff_eq] at h
  norm_num at h
  omega

theorem decodeIp_mapped (x : Nat) (hx : x < 2 ^ 128) (h : is_ipv4_mapped_ipv6 x = true) :
    decodeIp x = .ok (.v4 (x % 2 ^ 32)) := by
  have hd : x / 2 ^ 32 = 0xffff := is_mapped_div x hx h
  norm_num at hd
  simp [decodeIp, h, toIpv4Mapped, hd]

theorem decodeIp_unmapped (x : Nat) (h : is_ipv4_mapped_ipv6 x = false) :
    decodeIp x = .ok (.v6 x) := by
  simp [decodeIp, h]

theorem decodeIp_ok (x : Nat) (hx : x < 2 ^ 128) : ∃ ip, decodeIp x = .ok ip := by
  cases hm : is_ipv4_mapped_ipv6 x
  · exact ⟨_, decodeIp_unmapped x hm⟩
  · exact ⟨_, decodeIp_mapped x hx hm⟩

theorem decodeIp_ipToU128 (ip : IpAddr) (h : ip.wf = true) (h2 : ip.notMapped = true) :
    decodeIp (ipToU128 ip) = .ok ip := by
  cases ip with
  | v4 a =>
    simp only [IpAddr.wf, decide_eq_true_eq] at h
    have hmapped : is_ipv4_mapped_ipv6 (ipToU128 (.v4 a)) = true := by
      simp only [is_ipv4_mapped_ipv6, segments, ipToU128, Bool.and_eq_true, beq_iff_eq]
      norm_num
      omega
    rw [decodeIp_mapped _ (by simp only [ipToU128]; omega) hmapped]
    simp only [ipToU128]
    congr 2
    omega
  | v6 a =>
    simp only [IpAddr.notMapped, Bool.not_eq_true'] at h2
    simpa [ipToU128] using decodeIp_unmapped a h2

set_option maxHeartbeats 2000000 in
/-- Claim C1 (amended): for every well-formed `Version` that serializes
successfully AND whose receiver and sender IPs are not IPv6 values matching
the IPv4-mapped pattern, deserializing the serialized bytes returns the
original `Version`.  (The original claim, quantified over all IPv4/IPv6
addresses, fails: an IPv4-mapped `IpAddr::V6` decodes back as `IpAddr::V4`;
see the counterexample.) -/
theorem c1_identity_roundtrip (v : Version) (bytes : List Nat) (hwf : v.wf = true)
    (hr : v.receiver_address.ip.notMapped = true) (hs : v.sender_address.ip.notMapped = true)
    (hser : Version.serialize v = .ok bytes) :
    Version.deserialize bytes = .ok v := by
  obtain ⟨pv, sv, ts, rsv, ⟨rip, rport⟩, ssv, ⟨sip, sport⟩, nn, ua, sh, rl⟩ := v
  simp only [Version.wf, Bool.and_eq_true, decide_eq_true_eq, SockAddr.wf] at hwf
  obtain ⟨⟨⟨⟨⟨⟨⟨⟨⟨h1, h2⟩, h3⟩, h4⟩, hrw, h5⟩, h6⟩, hsw, h7⟩, h8⟩, h9⟩, h10⟩ := hwf
  simp only [Version.serialize] at hser
  split at hser
  case isFalse => exact absurd hser (by simp)
  case isTrue hua =>
    injection hser with hb
    subst hb
    have e1 : fromLE (toLE 4 pv) = pv := fromLE_toLE 4 pv (by omega)
    have e2 : fromLE (toLE 8 sv) = sv := fromLE_toLE 8 sv (by omega)
    have e3 : fromLE (toLE 8 ts) = ts := fromLE_toLE 8 ts (by omega)
    have e4 : fromLE (toLE 8 rsv) = rsv := fromLE_toLE 8 rsv (by omega)
    have e5 : fromBE (toBE 16 (ipToU128 rip)) = ipToU128 rip :=
      fromBE_toBE 16 _ (by have := ipToU128_lt rip hrw; omega)
    have e6 : fromBE (toBE 2 rport) = rport := fromBE_toBE 2 rport (by omega)
    have e7 : fromLE (toLE 8 ssv) = ssv := fromLE_toLE 8 ssv (by omega)
    have e8 : fromBE (toBE 16 (ipToU128 sip)) = ipToU128 sip :=
      fromBE_toBE 16 _ (by have := ipToU128_lt sip hsw; omega)
    have e9 : fromBE (toBE 2 sport) = sport := fromBE_toBE 2 sport (by omega)
    have e10 : fromLE (toLE 8 nn) = nn := fromLE_toLE 8 nn (by omega)
    have e11 : fromLE (toLE 4 sh) = sh := fromLE_toLE 4 sh (by omega)
    have d1 : decodeIp (ipToU128 rip) = .ok rip := decodeIp_ipToU128 rip hrw hr
    have d2 : decodeIp (ipToU128 sip) = .ok sip := decodeIp_ipToU128 sip hsw hs
    simp only [List.append_assoc]
    simp only [Version.deserialize, readBytesE_append, toLE_length, toBE_length,
      List.length_singleton, List.length_cons, List.length_nil, fromLE_singleton,
      readBytesE_singleton, ebind_ok, e1, e2, e3, e4, e5, e6, e7, e8, e9, e10, e11,
      d1, d2, h9, if_true]
    cases rl <;> rfl

set_option maxRecDepth 100000 in
/-- Claim C1 counterexample: `vMappedCex` is a well-formed `Version` (receiver
address the IPv6 `::ffff:0.0.0.0`); it serializes successfully, but
deserializing gives back `vMappedDecoded`, whose receiver address is the IPv4
`0.0.0.0` — not the original value. -/
theorem c1_counterexample :
    (Version.serialize vMappedCex).bind Version.deserialize = .ok vMappedDecoded ∧
    vMappedDecoded ≠ vMappedCex ∧ vMappedCex.wf = true := by
  decide

set_option maxRecDepth 100000 in
/-- Witness for C1 (amended) at the concrete value `vGood`. -/
theorem c1_identity_roundtrip_witness : Version.deserialize vGoodBytes = .ok vGood :=
  c1_identity_roundtrip vGood vGoodBytes (by decide) (by decide) (by decide) (by decide)


theorem mt_serialize_eq (mt : MessageType) :
    MessageType.serialize mt = .ok (mt.toName ++ List.replicate (12 - mt.toName.length) 0) := by
  cases mt <;> rfl

set_option maxRecDepth 100000 in
theorem mt_name_roundtrip (mt : MessageType) :
    MessageType.deserialize (mt.toName ++ List.replicate (12 - mt.toName.length) 0) = .ok mt := by
  cases mt <;> decide

set_option maxRecDepth 100000 in
theorem mt_padded_length (mt : MessageType) :
    (mt.toName ++ List.replicate (12 - mt.toName.length) 0).length = 12 := by
  cases mt <;> decide

theorem mt_serialize_ok (mt : MessageType) (bs : List Nat)
    (h : MessageType.serialize mt = .ok bs) :
    bs.length = 12 ∧ MessageType.deserialize bs = .ok mt := by
  rw [mt_serialize_eq] at h
  injection h with h2
  subst h2
  exact ⟨mt_padded_length mt, mt_name_roundtrip mt⟩

/-- Claim C5 (amended): the serialized `Version` payload always has length
`85 + 1 + user_agent length` (85 fixed bytes plus the 1-byte user-agent length
prefix plus the user-agent), not `100 + 1 + user_agent length`. -/
theorem c5_serialized_length (v : Version) (bytes : List Nat)
    (h : Version.serialize v = .ok bytes) :
    bytes.length = 85 + 1 + v.user_agent.length := by
  simp only [Version.serialize] at h
  split at h
  case isFalse => exact absurd h (by simp)
  case isTrue =>
    injection h with h2
    subst h2
    simp [List.length_append, toLE_length, toBE_length]
    omega

set_option maxRecDepth 100000 in
/-- Claim C5 counterexample: `vGood` has an empty user agent; its serialized
form is 86 bytes, not `100 + 1 + 0 = 101` bytes as the claim states. -/
theorem c5_counterexample :
    (Version.serialize vGood).map List.length = .ok 86 ∧
    vGood.user_agent.length = 0 ∧ (86 : Nat) ≠ 100 + 1 + 0 := by
  decide

set_option maxRecDepth 100000 in
/-- Witness for C5 (amended) at `vGood`. -/
theorem c5_serialized_length_witness : vGoodBytes.length = 85 + 1 + vGood.user_agent.length :=
  c5_serialized_length vGood vGoodBytes (by decide)

/-- Claim C7: command-name round-trip.  For every variant of the closed
enumeration, encode succeeds, produces exactly 12 bytes (the ASCII name
right-padded with zero bytes), and decode of the encoding returns the same
variant; and encoding any name longer than 12 bytes fails with the
`MessageTypeTooLong` error. -/
theorem c7_command_roundtrip :
    (∀ mt : MessageType,
      MessageType.serialize mt = .ok (mt.toName ++ List.replicate (12 - mt.toName.length) 0) ∧
      (mt.toName ++ List.replicate (12 - mt.toName.length) 0).length = 12 ∧
      MessageType.deserialize (mt.toName ++ List.replicate (12 - mt.toName.length) 0) = .ok mt) ∧
    (∀ name : List Nat, name.length > 12 →
      MessageType.serializeBytes name = .error (.messageTypeTooLong name.length)) := by
  constructor
  · exact fun mt => ⟨mt_serialize_eq mt, mt_padded_length mt, mt_name_roundtrip mt⟩
  · intro name h
    simp [MessageType.serializeBytes, h]

set_option maxRecDepth 100000 in
/-- Witness for C7 at a concrete over-long name (13 zero bytes). -/
theorem c7_command_roundtrip_witness :
    MessageType.serializeBytes (List.replicate 13 0) = .error (.messageTypeTooLong 13) := by
  have h := c7_command_roundtrip.2 (List.replicate 13 0) (by decide)
  simpa using h

/-- Claim C10: command-name encode is total over the closed enumeration —
every variant serializes successfully to exactly 12 bytes (the
`MessageTypeTooLong` branch is unreachable from `MessageType::serialize`). -/
theorem c10_serialize_total (mt : MessageType) :
    ∃ bs, MessageType.serialize mt = .ok bs ∧ bs.length = 12 :=
  ⟨_, mt_serialize_eq mt, mt_padded_length mt⟩

/-- Claim C9: decode never fails because of the magic bytes — for ANY 4-byte
magic value the rest of the parse proceeds identically and the read magic is
recorded unchanged in the returned `Message`; on the encode side
`Message::build` selects between the testnet and mainnet constants with the
boolean flag. -/
theorem c9_magic_not_validated :
    (∀ g rest, g.length = 4 →
      Message.deserialize (g ++ rest) =
        (Message.deserialize (MAGIC_BYTES_MAINNET ++ rest)).map
          (fun m => { m with magic_bytes := g })) ∧
    (∀ p ty, (Message.build p ty true).magic_bytes = MAGIC_BYTES_TESTNET ∧
      (Message.build p ty false).magic_bytes = MAGIC_BYTES_MAINNET) := by
  constructor
  · intro g rest hg
    rw [Message.deserialize, Message.deserialize,
      readBytesE_append g rest 4 hg,
      readBytesE_append MAGIC_BYTES_MAINNET rest 4 (by decide)]
    cases h : Message.deserializeRest rest <;> simp [h, Except.map]
  · intro p ty
    exact ⟨rfl, rfl⟩

/-- Witness for C9 at a concrete non-standard magic value. -/
theorem c9_magic_not_validated_witness :
    Message.deserialize ([1, 2, 3, 4] ++ verackMsgBytes.drop 4) =
      (Message.deserialize (MAGIC_BYTES_MAINNET ++ verackMsgBytes.drop 4)).map
        (fun m => { m with magic_bytes := [1, 2, 3, 4] }) :=
  c9_magic_not_validated.1 [1, 2, 3, 4] (verackMsgBytes.drop 4) (by decide)

/-- Claim C4: the responder transition per (status, received message type):
in `NoConnection` a version message yields a version reply (own address as
sender, peer address as receiver) and status `Connecting`, any other type the
wrong-message-type error; in `Connecting` a verack yields a verack reply and
`Connected`, any other type the error; in `Connected` every message is
accepted with status still `Connected`; and one loop iteration writes the new
status back into the shared map under the peer address. -/
theorem c4_responder_machine (own peer : SockAddr)
    (conns : List (SockAddr × ConnectionStatus)) (mt : MessageType) :
    (respondStep own peer .noConnection .Version =
      .ok (.connecting, some (.versionReply own peer))) ∧
    (mt ≠ .Version → respondStep own peer .noConnection mt =
      .error (.receivedWrongMessageType mt.toStr MessageType.Version.toStr)) ∧
    (respondStep own peer .connecting .VerAck = .ok (.connected, some .verackReply)) ∧
    (mt ≠ .VerAck → respondStep own peer .connecting mt =
      .error (.receivedWrongMessageType mt.toStr MessageType.VerAck.toStr)) ∧
    (respondStep own peer .connected mt = .ok (.connected, none)) ∧
    (∀ st res, respondStep own peer ((lookupStatus conns peer).getD .noConnection) mt =
        .ok (st, res) →
      runIteration own conns peer mt = .ok (insertStatus conns peer st, res) ∧
      lookupStatus (insertStatus conns peer st) peer = some st) := by
  refine ⟨rfl, ?_, rfl, ?_, rfl, ?_⟩
  · intro h; simp [respondStep, h]
  · intro h; simp [respondStep, h]
  · intro st res h
    rw [runIteration]
    rw [h]
    exact ⟨rfl, by simp [lookupStatus, insertStatus]⟩

/-- Witness for C4 at concrete addresses, map and message type. -/
theorem c4_responder_machine_witness :
    respondStep ⟨.v4 1, 8333⟩ ⟨.v4 2, 8334⟩ .noConnection .Ping =
      .error (.receivedWrongMessageType "ping" "version") :=
  (c4_responder_machine ⟨.v4 1, 8333⟩ ⟨.v4 2, 8334⟩ [] .Ping).2.1 (by decide)

/-- Claim C6 (the code is wrong here): receiving a verack while in
`NoConnection` produces `ReceivedWrongMessageType("verack", "version")`
(received first, expected second, as at the construction site), but the
`thiserror` format string renders field 0 in the `Expected` slot: the message
reads `"Received wrong message type. Expected verack, received version"`,
naming the RECEIVED type in the expected role and vice versa — the opposite
of what the claim (and the spec scenario) states. -/
theorem c6_error_roles_swapped :
    respondStep ⟨.v4 1, 8333⟩ ⟨.v4 2, 8334⟩ .noConnection .VerAck =
      .error (.receivedWrongMessageType "verack" "version") ∧
    renderListenerError (.receivedWrongMessageType "verack" "version") =
      "Received wrong message type. Expected verack, received version" := by
  constructor
  · rfl
  · rfl

end BitcoinHandshake

namespace BitcoinHandshake

theorem shaRounds_length (kw : List (Nat × Nat)) (st : List Nat) :
    (shaRounds kw st).length = st.length := by
  induction kw generalizing st with
  | nil => rfl
  | cons p rest ih =>
    obtain ⟨k, w⟩ := p
    rcases st with _ | ⟨a, _ | ⟨b, _ | ⟨c, _ | ⟨d, _ | ⟨e, _ | ⟨f, _ | ⟨g, _ | ⟨h, _ | ⟨i, t⟩⟩⟩⟩⟩⟩⟩⟩⟩ <;>
      simp [shaRounds, ih]

theorem shaCompress_length (st block : List Nat) (h : st.length = 8) :
    (shaCompress st block).length = 8 := by
  simp [shaCompress, shaRounds_length, h]

theorem shaBlocksGo_length (n : Nat) (st bytes : List Nat) (h : st.length = 8) :
    (shaBlocksGo n st bytes).length = 8 := by
  induction n generalizing st bytes with
  | zero => simpa [shaBlocksGo] using h
  | succ n ih => rw [shaBlocksGo]; exact ih _ _ (shaCompress_length _ _ h)

theorem foldr_toBE_length (l : List Nat) :
    (l.foldr (fun w acc => toBE 4 w ++ acc) []).length = 4 * l.length := by
  induction l with
  | nil => rfl
  | cons b bs ih => simp [toBE_length, ih]; ring

theorem sha256_length (msg : List Nat) : (sha256 msg).length = 32 := by
  rw [sha256, foldr_toBE_length, shaBlocksGo_length _ _ _ (by rfl)]

theorem build_checksum_length (p : List Nat) : (build_checksum p).length = 4 := by
  simp [build_checksum, List.length_take, sha256_length]

theorem flipBit_length (bytes : List Nat) (i k : Nat) :
    (flipBit bytes i k).length = bytes.length := by
  simp [flipBit]

theorem readBytesE_ok_inv (n : Nat) (data : List Nat) (d : List Nat × List Nat)
    (h : readBytesE n data = .ok d) :
    d.1 = data.take n ∧ d.2 = data.drop n ∧ n ≤ data.length := by
  rw [readBytesE] at h
  split at h
  case isTrue hc =>
    injection h with h2
    subst h2
    exact ⟨rfl, rfl, hc⟩
  case isFalse => exact absurd h (by simp)

theorem readBytesE_bytes_lt (n : Nat) (data : List Nat) (d : List Nat × List Nat)
    (h : readBytesE n data = .ok d) (hb : ∀ b ∈ data, b < 256) :
    (∀ b ∈ d.1, b < 256) ∧ (∀ b ∈ d.2, b < 256) ∧ d.1.length = n := by
  obtain ⟨hx, hr, hle⟩ := readBytesE_ok_inv n data d h
  refine ⟨fun b hm => hb b (List.take_subset n data (hx ▸ hm)),
    fun b hm => hb b (List.drop_subset n data (hr ▸ hm)), ?_⟩
  rw [hx, List.length_take]
  omega

theorem fromLE_lt_of_bytes (bs : List Nat) (h : ∀ b ∈ bs, b < 256) :
    fromLE bs < 256 ^ bs.length := by
  induction bs with
  | nil => simp [fromLE]
  | cons b rest ih =>
    have hb := h b (List.mem_cons_self b rest)
    have hr := ih (fun x hx => h x (List.mem_cons_of_mem b hx))
    rw [fromLE, List.length_cons, pow_succ]
    omega

theorem fromBE_lt_of_bytes (bs : List Nat) (h : ∀ b ∈ bs, b < 256) :
    fromBE bs < 256 ^ bs.length := by
  rw [fromBE, ← List.length_reverse bs]
  exact fromLE_lt_of_bytes bs.reverse (fun b hm => h b (List.mem_reverse.mp hm))

theorem readBytesE_error_eq (n : Nat) (data : List Nat) (e : SerdeBitcoinError)
    (h : readBytesE n data = .error e) : e = .ioError := by
  rw [readBytesE] at h
  split at h
  · exact absurd h (by simp)
  · injection h with h2
    exact h2.symm

theorem version_deserialize_no_map_error (data : List Nat) (hb : ∀ b ∈ data, b < 256) :
    Version.deserialize data ≠ .error .failedToMapToIpv4 := by
  intro h
  rw [Version.deserialize] at h
  cases h1 : readBytesE 4 data with
  | error e =>
    have he := readBytesE_error_eq _ _ _ h1
    subst he
    simp only [h1, ebind_error] at h
    exact absurd h (by simp)
  | ok d1 =>
  simp only [h1, ebind_ok] at h
  obtain ⟨-, hb1, -⟩ := readBytesE_bytes_lt 4 data d1 h1 hb
  cases h2 : readBytesE 8 d1.2 with
  | error e =>
    have he := readBytesE_error_eq _ _ _ h2
    subst he
    simp only [h2, ebind_error] at h
    exact absurd h (by simp)
  | ok d2 =>
  simp only [h2, ebind_ok] at h
  obtain ⟨-, hb2, -⟩ := readBytesE_bytes_lt 8 d1.2 d2 h2 hb1
  cases h3 : readBytesE 8 d2.2 with
  | error e =>
    have he := readBytesE_error_eq _ _ _ h3
    subst he
    simp only [h3, ebind_error] at h
    exact absurd h (by simp)
  | ok d3 =>
  simp only [h3, ebind_ok] at h
  obtain ⟨-, hb3, -⟩ := readBytesE_bytes_lt 8 d2.2 d3 h3 hb2
  cases h4 : readBytesE 8 d3.2 with
  | error e =>
    have he := readBytesE_error_eq _ _ _ h4
    subst he
    simp only [h4, ebind_error] at h
    exact absurd h (by simp)
  | ok d4 =>
  simp only [h4, ebind_ok] at h
  obtain ⟨-, hb4, -⟩ := readBytesE_bytes_lt 8 d3.2 d4 h4 hb3
  cases h5 : readBytesE 16 d4.2 with
  | error e =>
    have he := readBytesE_error_eq _ _ _ h5
    subst he
    simp only [h5, ebind_error] at h
    exact absurd h (by simp)
  | ok d5 =>
  simp only [h5, ebind_ok] at h
  obtain ⟨hb5x, hb5, hl5⟩ := readBytesE_bytes_lt 16 d4.2 d5 h5 hb4
  have hips : fromBE d5.1 < 2 ^ 128 := by
    have := fromBE_lt_of_bytes d5.1 hb5x
    rw [hl5] at this
    omega
  obtain ⟨ip1, hip1⟩ := decodeIp_ok (fromBE d5.1) hips
  simp only [hip1, ebind_ok] at h
  cases h6 : readBytesE 2 d5.2 with
  | error e =>
    have he := readBytesE_error_eq _ _ _ h6
    subst he
    simp only [h6, ebind_error] at h
    exact absurd h (by simp)
  | ok d6 =>
  simp only [h6, ebind_ok] at h
  obtain ⟨-, hb6, -⟩ := readBytesE_bytes_lt 2 d5.2 d6 h6 hb5
  cases h7 : readBytesE 8 d6.2 with
  | error e =>
    have he := readBytesE_error_eq _ _ _ h7
    subst he
    simp only [h7, ebind_error] at h
    exact absurd h (by simp)
  | ok d7 =>
  simp only [h7, ebind_ok] at h
  obtain ⟨-, hb7, -⟩ := readBytesE_bytes_lt 8 d6.2 d7 h7 hb6
  cases h8 : readBytesE 16 d7.2 with
  | error e =>
    have he := readBytesE_error_eq _ _ _ h8
    subst he
    simp only [h8, ebind_error] at h
    exact absurd h (by simp)
  | ok d8 =>
  simp only [h8, ebind_ok] at h
  obtain ⟨hb8x, hb8, hl8⟩ := readBytesE_bytes_lt 16 d7.2 d8 h8 hb7
  have hips2 : fromBE d8.1 < 2 ^ 128 := by
    have := fromBE_lt_of_bytes d8.1 hb8x
    rw [hl8] at this
    omega
  obtain ⟨ip2, hip2⟩ := decodeIp_ok (fromBE d8.1) hips2
  simp only [hip2, ebind_ok] at h
  cases h9 : readBytesE 2 d8.2 with
  | error e =>
    have he := readBytesE_error_eq _ _ _ h9
    subst he
    simp only [h9, ebind_error] at h
    exact absurd h (by simp)
  | ok d9 =>
  simp only [h9, ebind_ok] at h
  cases h10 : readBytesE 8 d9.2 with
  | error e =>
    have he := readBytesE_error_eq _ _ _ h10
    subst he
    simp only [h10, ebind_error] at h
    exact absurd h (by simp)
  | ok d10 =>
  simp only [h10, ebind_ok] at h
  cases h11 : readBytesE 1 d10.2 with
  | error e =>
    have he := readBytesE_error_eq _ _ _ h11
    subst he
    simp only [h11, ebind_error] at h
    exact absurd h (by simp)
  | ok d11 =>
  simp only [h11, ebind_ok] at h
  cases h12 : readBytesE (fromLE d11.1) d11.2 with
  | error e =>
    have he := readBytesE_error_eq _ _ _ h12
    subst he
    simp only [h12, ebind_error] at h
    exact absurd h (by simp)
  | ok d12 =>
  simp only [h12, ebind_ok] at h
  by_cases hu : utf8Valid d12.1 = true
  · simp only [hu, if_true, ebind_ok] at h
    cases h13 : readBytesE 4 d12.2 with
    | error e =>
    have he := readBytesE_error_eq _ _ _ h13
    subst he
    simp only [h13, ebind_error] at h
    exact absurd h (by simp)
    | ok d13 =>
    simp only [h13, ebind_ok] at h
    cases h14 : readBytesE 1 d13.2 with
    | error e =>
    have he := readBytesE_error_eq _ _ _ h14
    subst he
    simp only [h14, ebind_error] at h
    exact absurd h (by simp)
    | ok d14 =>
    simp only [h14, ebind_ok] at h
    exact absurd h (by simp)
  · simp only [hu, if_false, ebind_error] at h
    exact absurd h (by simp)


theorem take_append_of_len (xs ys : List Nat) (n : Nat) (h : xs.length = n) :
    (xs ++ ys).take n = xs := by
  subst h
  exact List.take_left xs ys

theorem drop_append_of_len (xs ys : List Nat) (n : Nat) (h : xs.length = n) :
    (xs ++ ys).drop n = ys := by
  subst h
  exact List.drop_left xs ys

/-- Claim C8: when the 16-byte address value (any `u128`) passes the
IPv4-mapped pattern check, the IPv4 extraction always succeeds, so `Version`
decode can never return `FailedToMapToIpv4` (for any byte input); a value not
matching the pattern decodes as the unchanged IPv6; and IPv4 `192.0.2.1`
encodes to `00000000000000000000FFFFC0000201` and decodes back. -/
theorem c8_mapped_extraction :
    (∀ x, x < 2 ^ 128 → is_ipv4_mapped_ipv6 x = true → decodeIp x = .ok (.v4 (x % 2 ^ 32))) ∧
    (∀ x, is_ipv4_mapped_ipv6 x = false → decodeIp x = .ok (.v6 x)) ∧
    (∀ data, (∀ b ∈ data, b < 256) → Version.deserialize data ≠ .error .failedToMapToIpv4) ∧
    encodeIp (.v4 0xC0000201) = [0, 0, 0, 0, 0, 0, 0, 0, 0, 0, 0xff, 0xff, 0xc0, 0x00, 0x02, 0x01] ∧
    decodeIp (fromBE [0, 0, 0, 0, 0, 0, 0, 0, 0, 0, 0xff, 0xff, 0xc0, 0x00, 0x02, 0x01]) =
      .ok (.v4 0xC0000201) :=
  ⟨decodeIp_mapped, decodeIp_unmapped, version_deserialize_no_map_error, by decide, by decide⟩

/-- Witness for C8 at concrete values. -/
theorem c8_mapped_extraction_witness :
    decodeIp 0xffff00000000 = .ok (.v4 0) ∧ decodeIp 1 = .ok (.v6 1) ∧
    Version.deserialize [] ≠ .error .failedToMapToIpv4 := by
  refine ⟨?_, ?_, ?_⟩
  · have h := c8_mapped_extraction.1 0xffff00000000 (by decide) (by decide)
    simpa using h
  · exact c8_mapped_extraction.2.1 1 (by decide)
  · exact c8_mapped_extraction.2.2.1 [] (by simp)

theorem checksum_mismatch_error (magic mtb lenb cs pb : List Nat) (mt : MessageType)
    (h4 : magic.length = 4) (h12 : mtb.length = 12)
    (hmt : MessageType.deserialize mtb = .ok mt)
    (hl : lenb.length = 4) (hc : cs.length = 4)
    (hlen : fromLE lenb = pb.length)
    (hne : build_checksum pb ≠ cs) :
    Message.deserialize (magic ++ (mtb ++ (lenb ++ (cs ++ pb)))) = .error .invalidChecksum := by
  rw [Message.deserialize, readBytesE_append magic _ 4 h4]
  simp only [Message.deserializeRest, readBytesE_append mtb _ 12 h12, hmt, ebind_ok,
    readBytesE_append lenb _ 4 hl, readBytesE_append cs _ 4 hc, hlen, readBytesE_exact]
  rw [if_pos hne]
  rfl

/-- Claim C2: the checksum comparison happens before any payload codec runs.
First clause: for ANY envelope whose header parses (any magic, a recognized
command, matching length field), a stored checksum different from the double
SHA-256 checksum of the payload bytes makes decode return `InvalidChecksum` —
by the shape of `Message::deserialize` the `Version`/`VerAck` payload
decoders are only reached after this comparison succeeds.  Second clause: the
single-bit-flip scenario — flipping bit `k` of byte `j` of the payload region
of any successfully encoded message makes decode fail with `InvalidChecksum`,
provided the flip changes the (4-byte, truncated) checksum. -/
theorem c2_checksum_before_payload :
    (∀ magic mtb lenb cs pb mt, magic.length = 4 → mtb.length = 12 →
      MessageType.deserialize mtb = .ok mt → lenb.length = 4 → cs.length = 4 →
      fromLE lenb = pb.length → build_checksum pb ≠ cs →
      Message.deserialize (magic ++ (mtb ++ (lenb ++ (cs ++ pb)))) = .error .invalidChecksum) ∧
    (∀ (m : Message) bytes j k, Message.serialize m = .ok bytes →
      m.magic_bytes.length = 4 → j < (bytes.drop 24).length →
      build_checksum (flipBit (bytes.drop 24) j k) ≠ build_checksum (bytes.drop 24) →
      Message.deserialize (bytes.take 24 ++ flipBit (bytes.drop 24) j k) =
        .error .invalidChecksum) := by
  constructor
  · exact fun magic mtb lenb cs pb mt h4 h12 hmt hl hc hlen hne =>
      checksum_mismatch_error magic mtb lenb cs pb mt h4 h12 hmt hl hc hlen hne
  · intro m bytes j k hser hm hj hne
    simp only [Message.serialize] at hser
    cases hp : m.payload.serialize with
    | error e => simp only [hp, ebind_error] at hser; exact absurd hser (by simp)
    | ok pb =>
    simp only [hp, ebind_ok] at hser
    split at hser
    case isFalse => exact absurd hser (by simp)
    case isTrue hlt =>
    cases hmtb : m.ty.serialize with
    | error e => simp only [hmtb, ebind_error] at hser; exact absurd hser (by simp)
    | ok mtb =>
    simp only [hmtb, ebind_ok] at hser
    injection hser with hbytes
    obtain ⟨h12, hdes⟩ := mt_serialize_ok m.ty mtb hmtb
    have hassoc : m.magic_bytes ++ (mtb ++ (toLE 4 pb.length ++ (build_checksum pb ++ pb)))
        = (m.magic_bytes ++ (mtb ++ (toLE 4 pb.length ++ build_checksum pb))) ++ pb := by
      simp [List.append_assoc]
    have hdr24 : (m.magic_bytes ++ (mtb ++ (toLE 4 pb.length ++ build_checksum pb))).length
        = 24 := by
      simp [hm, h12, toLE_length, build_checksum_length]
    have htake : bytes.take 24
        = m.magic_bytes ++ (mtb ++ (toLE 4 pb.length ++ build_checksum pb)) := by
      rw [← hbytes, hassoc, take_append_of_len _ _ _ hdr24]
    have hdrop : bytes.drop 24 = pb := by
      rw [← hbytes, hassoc, drop_append_of_len _ _ _ hdr24]
    rw [hdrop] at hne
    rw [htake, hdrop]
    have hgoal : m.magic_bytes ++ (mtb ++ (toLE 4 pb.length ++ build_checksum pb)) ++
        flipBit pb j k
        = m.magic_bytes ++ (mtb ++ (toLE 4 pb.length ++ (build_checksum pb ++ flipBit pb j k))) := by
      simp [List.append_assoc]
    rw [hgoal]
    exact checksum_mismatch_error _ _ _ _ _ m.ty hm h12 hdes (toLE_length _ _)
      (build_checksum_length _)
      (by rw [flipBit_length, fromLE_toLE 4 pb.length (by omega)])
      hne

set_option maxRecDepth 1000000 in
/-- Witness for C2 at a concrete corrupted message: a verack envelope whose
stored checksum field is zeroed (the checksum of the empty payload is
`5df6e0e2`, not `00000000`). -/
theorem c2_checksum_before_payload_witness :
    Message.deserialize
      ([0xf9, 0xbe, 0xb4, 0xd9] ++ ([118, 101, 114, 97, 99, 107, 0, 0, 0, 0, 0, 0] ++
        ([0, 0, 0, 0] ++ ([0, 0, 0, 0] ++ [])))) = .error .invalidChecksum :=
  c2_checksum_before_payload.1 [0xf9, 0xbe, 0xb4, 0xd9]
    [118, 101, 114, 97, 99, 107, 0, 0, 0, 0, 0, 0] [0, 0, 0, 0] [0, 0, 0, 0] []
    MessageType.VerAck (by decide) (by decide) (by decide) (by decide) (by decide)
    (by decide) (by decide)

theorem deserializeRest_agreement (r : List Nat) (ty : MessageType) (pl : Payload)
    (h : Message.deserializeRest r = .ok (ty, pl)) :
    (ty = .Version ∧ ∃ v, pl = .version v) ∨ (ty = .VerAck ∧ pl = .verAck .mk) := by
  rw [Message.deserializeRest] at h
  cases h1 : readBytesE 12 r with
  | error e => simp only [h1, ebind_error] at h; exact absurd h (by simp)
  | ok d1 =>
  simp only [h1, ebind_ok] at h
  cases hmt : MessageType.deserialize d1.1 with
  | error e => simp only [hmt, ebind_error] at h; exact absurd h (by simp)
  | ok mt =>
  simp only [hmt, ebind_ok] at h
  cases h2 : readBytesE 4 d1.2 with
  | error e => simp only [h2, ebind_error] at h; exact absurd h (by simp)
  | ok d2 =>
  simp only [h2, ebind_ok] at h
  cases h3 : readBytesE 4 d2.2 with
  | error e => simp only [h3, ebind_error] at h; exact absurd h (by simp)
  | ok d3 =>
  simp only [h3, ebind_ok] at h
  cases h4 : readBytesE (fromLE d2.1) d3.2 with
  | error e => simp only [h4, ebind_error] at h; exact absurd h (by simp)
  | ok d4 =>
  simp only [h4, ebind_ok] at h
  split at h
  · exact absurd h (by simp)
  · cases mt
    case Version =>
      cases hv : Version.deserialize d4.1 with
      | error e => simp only [hv, Except.map] at h; exact absurd h (by simp)
      | ok v =>
        simp only [hv, Except.map] at h
        injection h with h2
        rw [Prod.mk.injEq] at h2
        exact Or.inl ⟨h2.1.symm, v, h2.2.symm⟩
    case VerAck =>
      simp only [VerAck.deserialize, Except.map] at h
      injection h with h2
      rw [Prod.mk.injEq] at h2
      exact Or.inr ⟨h2.1.symm, h2.2.symm⟩
    all_goals exact absurd h (by simp)

set_option maxRecDepth 1000000 in
/-- Claim C3 counterexample: `Message::build` takes the command tag
independently of the payload, so a message whose payload is the `VerAck`
variant but whose command is `version` can be built AND serialized: the
serialized bytes carry the 12-byte command `"version"` with an empty (verack)
payload.  Encode does NOT derive the command from the payload variant. -/
theorem c3_counterexample :
    (Message.build (Payload.verAck VerAck.mk) MessageType.Version false).ty =
      MessageType.Version ∧
    (Message.build (Payload.verAck VerAck.mk) MessageType.Version false).payload =
      Payload.verAck VerAck.mk ∧
    Message.serialize (Message.build (Payload.verAck VerAck.mk) MessageType.Version false) =
      .ok [0xf9, 0xbe, 0xb4, 0xd9, 118, 101, 114, 115, 105, 111, 110, 0, 0, 0, 0, 0,
        0, 0, 0, 0, 0x5d, 0xf6, 0xe0, 0xe2] := by
  refine ⟨rfl, rfl, by decide⟩

/-- Claim C3 (amended): the decode direction holds — every successfully
decoded `Message` has its command discriminant in agreement with its payload
variant (`Version` command with a `Version` payload, `verack` command with a
`VerAck` payload).  On encode the command comes from the caller-supplied `ty`
field, so the encode half of the original claim is refuted by the
counterexample. -/
theorem c3_decode_agreement (data : List Nat) (m : Message)
    (h : Message.deserialize data = .ok m) :
    (m.ty = .Version ∧ ∃ v, m.payload = .version v) ∨
    (m.ty = .VerAck ∧ m.payload = .verAck .mk) := by
  rw [Message.deserialize] at h
  cases h4 : readBytesE 4 data with
  | error e => rw [h4] at h; exact absurd h (by simp)
  | ok d =>
    rw [h4] at h
    simp only [Except.map] at h
    cases hr : Message.deserializeRest d.2 with
    | error e => rw [hr] at h; exact absurd h (by simp)
    | ok p =>
      rw [hr] at h
      injection h with h2
      subst h2
      simpa using deserializeRest_agreement d.2 p.1 p.2 hr

set_option maxRecDepth 1000000 in
/-- Witness for C3 (amended) at the canonical mainnet verack message. -/
theorem c3_decode_agreement_witness :
    ((⟨MAGIC_BYTES_MAINNET, .VerAck, .verAck .mk⟩ : Message).ty = .Version ∧
      ∃ v, (⟨MAGIC_BYTES_MAINNET, .VerAck, .verAck .mk⟩ : Message).payload = .version v) ∨
    ((⟨MAGIC_BYTES_MAINNET, .VerAck, .verAck .mk⟩ : Message).ty = .VerAck ∧
      (⟨MAGIC_BYTES_MAINNET, .VerAck, .verAck .mk⟩ : Message).payload = .verAck .mk) :=
  c3_decode_agreement verackMsgBytes ⟨MAGIC_BYTES_MAINNET, .VerAck, .verAck .mk⟩ (by decide)

end BitcoinHandshake
